import Mathlib

/-!
# tomacheck: the view controller of `static/js/script.js`

A shallow embedding of the page script.  The DOM elements the script binds to
are modelled by the properties the script reads or writes (membership of the
CSS class `hidden` in `classList`, `disabled`, `textContent`, `innerHTML`,
`style.width`, `src`, `value`), collected in one record `State` together with
the script variable `currentFile`.  A handler is a function from `State` to a
new `State` and the list of effects it emits (alerts, console errors, requests
it starts).  The two `async` handlers are split at their `await`: a part that
runs up to the request and a part that runs when the request settles.
-/

set_option maxRecDepth 100000

namespace Tomacheck

/-! ## Data model -/

/-- A browser `File`: the properties the script reads (`type`, `size`) and the
data URL that `FileReader.readAsDataURL` yields for its contents. -/
structure File where
  name : String
  type : String
  size : Nat
  dataURL : String
  deriving DecidableEq, Repr

/-- What a handler does besides changing the state. -/
inductive Effect where
  | alert (msg : String)
  | consoleError (tag : String)
  | readAsDataURL (file : File)
  | fetchPredict (file : File)
  | fetchRecommendation (disease : String)
  deriving DecidableEq, Repr

/-- The script variable `currentFile` and the element properties the script
touches.  A field `xHidden` is true when `x.classList` contains `hidden`. -/
structure State where
  currentFile : Option File
  fileInputValue : String
  helpBtnDisabled : Bool
  recommendationContainerHidden : Bool
  recommendationSpinnerHidden : Bool
  recommendationContentHidden : Bool
  recommendationContentHTML : String
  uploadFormHidden : Bool
  uploadAreaDragging : Bool
  uploadPromptHidden : Bool
  imagePreviewContainerHidden : Bool
  imagePreviewSrc : String
  analyzeBtnHidden : Bool
  analyzeBtnDisabled : Bool
  resultContainerHidden : Bool
  resultDiseaseText : String
  confidenceLevelWidth : String
  confidenceTextText : String
  btnTextHidden : Bool
  spinnerHidden : Bool
  deriving DecidableEq, Repr

/-! ## File selection -/

/-- The array `validTypes` of `handleFile`. -/
def validTypes : List String := ["image/jpeg", "image/png", "image/webp"]

/-- The function `displayImagePreview`: starts the file read and switches the
panels.  The `onload` callback of the reader is `readerOnload`. -/
def displayImagePreview (s : State) (file : File) : State × List Effect :=
  ({ s with
      uploadPromptHidden := true
      imagePreviewContainerHidden := false
      analyzeBtnHidden := false
      resultContainerHidden := true },
   [Effect.readAsDataURL file])

/-- The callback `reader.onload` of `displayImagePreview`. -/
def readerOnload (s : State) (file : File) : State :=
  { s with imagePreviewSrc := file.dataURL }

/-- The function `handleFile`.  `file.size` is a whole number of bytes, so the
comparison with `10 * 1024 * 1024` is exact. -/
def handleFile (s : State) (file : File) : State × List Effect :=
  if !(validTypes.contains file.type) then
    (s, [Effect.alert "Invalid file type. Please select a JPG, PNG, or WEBP image."])
  else if file.size > 10 * 1024 * 1024 then
    (s, [Effect.alert "File is too large. Maximum size is 10MB."])
  else
    displayImagePreview { s with currentFile := some file } file

/-! ## Loading flag and reset -/

/-- The function `setLoading`. -/
def setLoading (s : State) (isLoading : Bool) : State :=
  if isLoading then
    { s with btnTextHidden := true, spinnerHidden := false, analyzeBtnDisabled := true }
  else
    { s with btnTextHidden := false, spinnerHidden := true, analyzeBtnDisabled := false }

/-- The function `resetUI`.  The value `0%` is a valid width, so the setter of
`style.width` stores it. -/
def resetUI (s : State) : State :=
  { s with
      currentFile := none
      fileInputValue := ""
      uploadFormHidden := false
      uploadPromptHidden := false
      imagePreviewContainerHidden := true
      imagePreviewSrc := ""
      analyzeBtnHidden := true
      resultContainerHidden := true
      recommendationContainerHidden := true
      helpBtnDisabled := false
      confidenceLevelWidth := "0%" }

/-! ## JavaScript numbers

`displayResults` computes `(data.confidence * 100).toFixed(2)` on IEEE-754
binary64 numbers.  The model is exact: a finite number is kept as sign,
integer significand and binary exponent, a product is the exact product
rounded to the nearest representable number (ties to even), and `toFixed`
follows ECMA-262 (`Number.prototype.toFixed`). -/

/-- A JavaScript Number.  `finite neg mant exp` is `(-1)^neg * mant * 2^exp`. -/
inductive Num where
  | finite (neg : Bool) (mant : Nat) (exp : Int)
  | inf (neg : Bool)
  | nan
  deriving DecidableEq, Repr

/-- The exact value of a finite number (0 for the others). -/
def Num.toRat : Num → ℚ
  | .finite neg m e => (if neg then -1 else 1) * (m : ℚ) * (2 : ℚ) ^ e
  | _ => 0

/-- Floor of the binary logarithm (0 at 0), by halving. -/
def log2Floor (n : Nat) : Nat := go n n
where
  go : Nat → Nat → Nat
    | 0, _ => 0
    | fuel + 1, n => if n < 2 then 0 else go fuel (n / 2) + 1

/-- The exponent `u` of the unit in the last place of the binary64 numbers
around `p / q` (with `0 < p`, `0 < q`): `max (e - 52) (-1074)` for
`2^e ≤ p / q < 2^(e+1)`. -/
def ulpExponent (p q : Nat) : Int :=
  let e0 : Int := (log2Floor p : Int) - (log2Floor q : Int)
  let below : Bool :=
    if 0 ≤ e0 then decide (p < q * 2 ^ e0.toNat) else decide (p * 2 ^ (-e0).toNat < q)
  let e : Int := if below then e0 - 1 else e0
  max (e - 52) (-1074)

/-- The integer nearest to `p / (q * 2^u)`, the even one on a tie. -/
def roundedSignificand (p q : Nat) (u : Int) : Nat :=
  let num : Nat := p * 2 ^ (-u).toNat
  let den : Nat := q * 2 ^ u.toNat
  let hi : Nat := num / den
  let lo : Nat := num % den
  if den < 2 * lo ∨ (2 * lo = den ∧ hi % 2 = 1) then hi + 1 else hi

/-- The binary64 number nearest to `p / q` (with `0 < q`), ties to even; a
result of `2^1024` or more is infinite. -/
def roundNearestEven (neg : Bool) (p q : Nat) : Num :=
  if p = 0 then Num.finite neg 0 0
  else
    let u : Int := ulpExponent p q
    let mant : Nat := roundedSignificand p q u
    if 1024 ≤ (log2Floor mant : Int) + u then Num.inf neg else Num.finite neg mant u

/-- The operator `*` on Numbers. -/
def Num.mul : Num → Num → Num
  | .nan, _ => .nan
  | _, .nan => .nan
  | .inf a, .inf b => .inf (xor a b)
  | .inf a, .finite b m _ => if m = 0 then .nan else .inf (xor a b)
  | .finite a m _, .inf b => if m = 0 then .nan else .inf (xor a b)
  | .finite a m e, .finite b n f =>
      roundNearestEven (xor a b) (m * n * 2 ^ (e + f).toNat) (2 ^ (-(e + f)).toNat)

/-- The Number denoted by the decimal literal `digits / 10^scale`, such as
`0.8734` for `ofDecimal 8734 4`. -/
def Num.ofDecimal (digits scale : Nat) : Num := roundNearestEven false digits (10 ^ scale)

/-- The digit string of `toFixed`: the decimal digits of `n`, padded on the
left with zeros to `f + 1` digits, with a point before the last `f` digits. -/
def fixedDigits (n f : Nat) : String :=
  let m := (Nat.repr n).data
  let m := if m.length ≤ f then List.replicate (f + 1 - m.length) '0' ++ m else m
  if f = 0 then String.mk m
  else String.mk (m.take (m.length - f) ++ '.' :: m.drop (m.length - f))

/-- What the script uses of the browser and of the library `marked`, neither
of which is part of the repository. -/
structure Platform where
  /-- The call `marked.parse`; `none` when it throws. -/
  markedParse : String → Option String
  /-- The operation `Number::toString` on finite numbers of magnitude `10^21` or more. -/
  numberToString : Num → String

/-- The method `Number.prototype.toFixed` with `f` fraction digits: for a
finite `x` below `10^21` in magnitude the integer `n` nearest to `x * 10^f`
(the larger one on a tie) is printed with `f` decimals. -/
def toFixed (P : Platform) (x : Num) (f : Nat) : String :=
  match x with
  | .nan => "NaN"
  | .inf neg => if neg then "-Infinity" else "Infinity"
  | .finite neg m e =>
      let s := if neg ∧ m ≠ 0 then "-" else ""
      let p := m * 2 ^ e.toNat
      let q := 2 ^ (-e).toNat
      if 10 ^ 21 * q ≤ p then s ++ P.numberToString (.finite false m e)
      else s ++ fixedDigits ((2 * p * 10 ^ f + q) / (2 * q)) f

/-! ## Prediction -/

/-- The parsed JSON body of a `/predict` response. -/
structure PredictionData where
  prediction : String
  confidence : Num
  deriving DecidableEq, Repr

/-- The call `str.replace(/_/g, ' ')` on the characters of a string: a scan
that emits a space for each underscore and every other character as it is. -/
def replaceUnderscores : List Char → List Char
  | [] => []
  | c :: cs => (if c = '_' then ' ' else c) :: replaceUnderscores cs

/-- Drops the leading decimal digits. -/
def skipDigits (cs : List Char) : List Char := cs.dropWhile Char.isDigit

/-- Drops a leading exponent of a CSS number (`e` or `E`, an optional sign,
digits), if there is one. -/
def skipExponent : List Char → List Char
  | e :: d :: t =>
      if e = 'e' ∨ e = 'E' then
        if d.isDigit then skipDigits t
        else if d = '+' ∨ d = '-' then
          match t with
          | d2 :: t2 => if d2.isDigit then skipDigits t2 else e :: d :: t
          | [] => e :: d :: t
        else e :: d :: t
      else e :: d :: t
  | r => r

/-- An unsigned CSS percentage: digits, an optional point with digits, an
optional exponent, then `%`, with a digit before or after the point. -/
def cssUnsignedPercentage (cs : List Char) : Bool :=
  let r1 := skipDigits cs
  let hasInt := decide (r1.length < cs.length)
  let frac : Bool × List Char :=
    match r1 with
    | c :: d :: t => if c = '.' ∧ d.isDigit = true then (true, skipDigits t) else (false, r1)
    | _ => (false, r1)
  (hasInt || frac.1) && skipExponent frac.2 == ['%']

/-- The digits before the exponent of a CSS number are all zero. -/
def mantissaZero (cs : List Char) : Bool :=
  (cs.takeWhile (fun c => c.isDigit || c == '.')).all (fun c => c == '0' || c == '.')

/-- The values the setter of `style.width` accepts among the strings that end
in `%`: a percentage that is not negative.  Any other such string is not a
declaration of `width` and the setter ignores it. -/
def cssWidthValid (value : String) : Bool :=
  match value.data with
  | c :: cs =>
      if c = '-' then cssUnsignedPercentage cs && mantissaZero cs
      else if c = '+' then cssUnsignedPercentage cs
      else cssUnsignedPercentage (c :: cs)
  | [] => false

/-- The assignment `confidenceLevel.style.width = value`: the width becomes
`value` when that is a valid width and stays as it was otherwise.  The field
holds the text of the last value accepted. -/
def setStyleWidth (width value : String) : String :=
  if cssWidthValid value then value else width

/-- The function `displayResults`. -/
def displayResults (P : Platform) (s : State) (data : PredictionData) : State :=
  let diseaseName := String.mk (replaceUnderscores data.prediction.data)
  let confidence := toFixed P (data.confidence.mul (Num.ofDecimal 100 0)) 2
  { s with
      resultDiseaseText := diseaseName
      confidenceTextText := confidence ++ "%"
      confidenceLevelWidth := setStyleWidth s.confidenceLevelWidth (confidence ++ "%")
      uploadFormHidden := true
      resultContainerHidden := false }

/-! ## Requests

A `fetch` either rejects (transport failure) or resolves to a response with a
status; `response.ok` holds for the statuses 200 to 299.  The body is `none`
when `response.json()` rejects or the parsed value lacks the string the
handler goes on to use (the handler then throws before it changes anything).
Between `await fetch` and `await response.json()` a handler neither reads nor
writes the state, so its continuation is modelled as one step that runs when
the last of the two has settled. -/

/-- How a `fetch` settles, with the parsed body of type `α`. -/
inductive FetchResult (α : Type) where
  | networkError
  | response (status : Nat) (body : Option α)
  deriving DecidableEq, Repr

/-- The property `response.ok`. -/
def responseOk (status : Nat) : Bool := decide (200 ≤ status ∧ status ≤ 299)

/-- A transport failure or a response with a status outside 200 to 299. -/
def FetchResult.failed {α : Type} : FetchResult α → Bool
  | .networkError => true
  | .response status _ => !responseOk status

/-- The function `uploadAndPredict` up to `await fetch`. -/
def uploadAndPredictStart (s : State) (file : File) : State × List Effect :=
  (setLoading s true, [Effect.fetchPredict file])

/-- The effects of the `catch` block of `uploadAndPredict`. -/
def predictFailure : List Effect :=
  [Effect.consoleError "Error:",
   Effect.alert "An error occurred during analysis. Please try again."]

/-- The function `uploadAndPredict` from the point where `fetch` settles: the
`try` body or the `catch` block, then the `finally` block. -/
def uploadAndPredictSettle (P : Platform) (s : State)
    (r : FetchResult PredictionData) : State × List Effect :=
  let tried : State × List Effect :=
    match r with
    | .networkError => (s, predictFailure)
    | .response status body =>
        if !responseOk status then (s, predictFailure)
        else
          match body with
          | none => (s, predictFailure)
          | some data => (displayResults P s data, [])
  (setLoading tried.1 false, tried.2)

/-- The `submit` listener of the upload form. -/
def onSubmit (s : State) : State × List Effect :=
  match s.currentFile with
  | some file => uploadAndPredictStart s file
  | none => (s, [])

/-- The `click` listener of the help button up to `await fetch`. -/
def helpClickStart (s : State) : State × List Effect :=
  ({ s with
      recommendationContainerHidden := false
      recommendationSpinnerHidden := false
      recommendationContentHidden := true
      helpBtnDisabled := true },
   [Effect.fetchRecommendation s.resultDiseaseText])

/-- The text the `catch` block of the help listener puts into the panel. -/
def apology : String :=
  "<p>Sorry, we could not retrieve advice at this time. Please try again later.</p>"

/-- The `click` listener of the help button from the point where `fetch`
settles: the `try` body or the `catch` block, then the `finally` block. -/
def helpClickSettle (P : Platform) (s : State)
    (r : FetchResult String) : State × List Effect :=
  let failure : State × List Effect :=
    ({ s with recommendationContentHTML := apology },
     [Effect.consoleError "Error fetching recommendation:"])
  let tried : State × List Effect :=
    match r with
    | .networkError => failure
    | .response status body =>
        if !responseOk status then failure
        else
          match body with
          | none => failure
          | some recommendation =>
              match P.markedParse recommendation with
              | none => failure
              | some html => ({ s with recommendationContentHTML := html }, [])
  ({ tried.1 with
      recommendationSpinnerHidden := true
      recommendationContentHidden := false },
   tried.2)

/-! ## Events

The page as a transition system.  A `World` is the controller state, the
effects emitted so far and the asynchronous operations still outstanding.  An
event is a listener firing or an outstanding operation completing; operations
complete in any order.  The `disabled` properties filter no event, so what is
proved of every run also holds when disabling is bypassed.  The `click`
listeners that only open the file picker change nothing and are left out. -/

/-- The controller state with the outstanding asynchronous operations. -/
structure World where
  ui : State
  log : List Effect
  reads : List File
  predicts : Nat
  recommendations : Nat
  deriving DecidableEq, Repr

/-- A listener firing or an asynchronous operation completing. -/
inductive Event where
  /-- The event `change` of the file input, whose `value` and `files` the browser has set. -/
  | change (value : String) (files : List File)
  /-- The event `dragover` on the upload area. -/
  | dragover
  /-- The event `dragleave` on the upload area. -/
  | dragleave
  /-- The event `drop` on the upload area, with `dataTransfer.files`. -/
  | drop (files : List File)
  /-- A click on the remove-image button. -/
  | removeImageClick
  /-- A click on the analyze-another button. -/
  | analyzeAnotherClick
  /-- The event `submit` of the upload form. -/
  | submit
  /-- A click on the help button. -/
  | helpClick
  /-- The event `load` of a file reader started by `displayImagePreview`. -/
  | readerLoaded (file : File)
  /-- A `/predict` request settles. -/
  | predictSettled (r : FetchResult PredictionData)
  /-- A `/get_recommendation` request settles. -/
  | recommendationSettled (r : FetchResult String)
  deriving DecidableEq, Repr

/-- The file reads a list of effects starts. -/
def startedReads : List Effect → List File
  | [] => []
  | Effect.readAsDataURL file :: effs => file :: startedReads effs
  | _ :: effs => startedReads effs

/-- The number of `/predict` requests a list of effects starts. -/
def startedPredicts : List Effect → Nat
  | [] => 0
  | Effect.fetchPredict _ :: effs => startedPredicts effs + 1
  | _ :: effs => startedPredicts effs

/-- The number of `/get_recommendation` requests a list of effects starts. -/
def startedRecommendations : List Effect → Nat
  | [] => 0
  | Effect.fetchRecommendation _ :: effs => startedRecommendations effs + 1
  | _ :: effs => startedRecommendations effs

/-- Records the outcome of a handler in the world. -/
def World.after (w : World) (r : State × List Effect) : World :=
  { ui := r.1
    log := w.log ++ r.2
    reads := w.reads ++ startedReads r.2
    predicts := w.predicts + startedPredicts r.2
    recommendations := w.recommendations + startedRecommendations r.2 }

/-- The listeners `change` and `drop` on the first file, if there is one. -/
def onFiles (s : State) (files : List File) : State × List Effect :=
  match files with
  | file :: _ => handleFile s file
  | [] => (s, [])

/-- One event.  The result is `none` when the event cannot happen: a completion
without an outstanding operation. -/
def step (P : Platform) (w : World) : Event → Option World
  | .change value files =>
      some (w.after (onFiles { w.ui with fileInputValue := value } files))
  | .dragover => some (w.after ({ w.ui with uploadAreaDragging := true }, []))
  | .dragleave => some (w.after ({ w.ui with uploadAreaDragging := false }, []))
  | .drop files =>
      some (w.after (onFiles { w.ui with uploadAreaDragging := false } files))
  | .removeImageClick => some (w.after (resetUI w.ui, []))
  | .analyzeAnotherClick => some (w.after (resetUI w.ui, []))
  | .submit => some (w.after (onSubmit w.ui))
  | .helpClick => some (w.after (helpClickStart w.ui))
  | .readerLoaded file =>
      if file ∈ w.reads then
        some ({ w with reads := w.reads.erase file }.after (readerOnload w.ui file, []))
      else none
  | .predictSettled r =>
      if 0 < w.predicts then
        some ({ w with predicts := w.predicts - 1 }.after (uploadAndPredictSettle P w.ui r))
      else none
  | .recommendationSettled r =>
      if 0 < w.recommendations then
        some ({ w with recommendations := w.recommendations - 1 }.after
          (helpClickSettle P w.ui r))
      else none

/-- A sequence of events from a world; `none` when one of them cannot happen. -/
def run (P : Platform) : World → List Event → Option World
  | w, [] => some w
  | w, ev :: evs =>
      match step P w ev with
      | none => none
      | some w1 => run P w1 evs

/-- Modelled from the spec: the HTML document that fixes the state at page
load is not among the sources.  The panels are as the spec gives the initial
idle state (upload form and prompt visible; preview, result and recommendation
hidden; confidence bar at 0%; help button enabled), which is also what
`resetUI`, commented "Reset UI to initial state", establishes. -/
def initialState : State :=
  { currentFile := none
    fileInputValue := ""
    helpBtnDisabled := false
    recommendationContainerHidden := true
    recommendationSpinnerHidden := true
    recommendationContentHidden := true
    recommendationContentHTML := ""
    uploadFormHidden := false
    uploadAreaDragging := false
    uploadPromptHidden := false
    imagePreviewContainerHidden := true
    imagePreviewSrc := ""
    analyzeBtnHidden := true
    analyzeBtnDisabled := false
    resultContainerHidden := true
    resultDiseaseText := ""
    confidenceLevelWidth := "0%"
    confidenceTextText := ""
    btnTextHidden := false
    spinnerHidden := true }

/-- The world at page load: the initial state, nothing emitted, nothing outstanding. -/
def initialWorld : World :=
  { ui := initialState, log := [], reads := [], predicts := 0, recommendations := 0 }

/-! ## Vocabulary of the statements and sample inputs -/

/-- A selection is rejected: the handler leaves the state as it was and raises
one alert. -/
def Rejected (s : State) (r : State × List Effect) : Prop :=
  r.1 = s ∧ ∃ msg, r.2 = [Effect.alert msg]

/-- A selection is accepted: the file is the current file, its preview is
started, and no alert is raised. -/
def Accepted (file : File) (r : State × List Effect) : Prop :=
  r.1.currentFile = some file ∧ r.2 = [Effect.readAsDataURL file]

/-- The upload form and the result panel are not both visible. -/
def panelsOk (s : State) : Bool := s.uploadFormHidden || s.resultContainerHidden

/-- The decimal numeral of a natural number, from its list of digits. -/
def wholeDigits (n : Nat) : List Char :=
  if n = 0 then ['0'] else ((Nat.digits 10 n).reverse).map Nat.digitChar

/-- The numeral with two decimals of `n / 100`: the numeral of the whole part,
a point, the tenths digit and the hundredths digit. -/
def twoDecimalString (n : Nat) : String :=
  String.mk (wholeDigits (n / 100) ++ ['.', Nat.digitChar (n / 10 % 10), Nat.digitChar (n % 10)])

/-- The spec's "rounded to two decimals", on exact values: the sign, then the
numeral with two decimals of the multiple of `1 / 100` nearest to `|v|` (the
larger one on a tie). -/
def roundedToTwoDecimals (v : ℚ) : String :=
  (if v < 0 then "-" else "") ++ twoDecimalString ⌊|v| * 100 + 1 / 2⌋₊

/-- A confidence of the data model: a finite number between 0 and 1. -/
def Num.inUnitInterval : Num → Prop
  | .finite neg m e => 0 ≤ Num.toRat (.finite neg m e) ∧ Num.toRat (.finite neg m e) ≤ 1
  | _ => False

/-- A PNG file of exactly 10 MiB. -/
def leafPng : File :=
  { name := "leaf.png", type := "image/png", size := 10485760, dataURL := "data:image/png;base64,iVBORw0KGgo=" }

/-- A PDF file. -/
def notesPdf : File :=
  { name := "notes.pdf", type := "application/pdf", size := 2048, dataURL := "data:application/pdf;base64,JVBERi0=" }

/-- A platform to evaluate runs with: `marked.parse` wraps its input in a paragraph. -/
def samplePlatform : Platform :=
  { markedParse := fun md => some ("<p>" ++ md ++ "</p>")
    numberToString := fun _ => "1e+21" }

/-- The prediction response of the spec: `Tomato_Late_blight` with confidence `0.8734`. -/
def lateBlight : PredictionData :=
  { prediction := "Tomato_Late_blight", confidence := Num.ofDecimal 8734 4 }

/-- A run from page load to a displayed result: select, submit, response. -/
def sampleRun : List Event :=
  [Event.change "leaf.png" [leafPng], Event.submit,
   Event.predictSettled (FetchResult.response 200 (some lateBlight))]

/-! ## Theorems -/

/-- C1: for every state and every file whose MIME type is not `image/jpeg`,
`image/png` or `image/webp`, whatever its size, `handleFile` raises the alert
on the file type and returns the state it was given, unchanged in every field
(current file and all flags included), and starts nothing. -/
theorem handleFile_invalid_type (s : State) (file : File)
    (h : file.type ∉ validTypes) :
    handleFile s file =
      (s, [Effect.alert "Invalid file type. Please select a JPG, PNG, or WEBP image."]) := by
  simp [handleFile, h]

theorem handleFile_invalid_type_witness :
    notesPdf.type ∉ validTypes ∧
      handleFile ((handleFile initialState leafPng).1) notesPdf =
        ((handleFile initialState leafPng).1,
          [Effect.alert "Invalid file type. Please select a JPG, PNG, or WEBP image."]) ∧
      ((handleFile ((handleFile initialState leafPng).1) notesPdf).1).currentFile = some leafPng :=
  ⟨by decide, handleFile_invalid_type _ notesPdf (by decide), by decide⟩

/-- C2: for every file with an accepted MIME type, `handleFile` rejects it when
its size is 10485761 bytes or more, accepts it when its size is exactly
10485760 bytes, and in general accepts it if and only if its size is at most
`10 * 1024 * 1024` and rejects it if and only if its size is larger. -/
theorem handleFile_size_limit (s : State) (file : File)
    (h : file.type ∈ validTypes) :
    (10485761 ≤ file.size → Rejected s (handleFile s file)) ∧
    (file.size = 10485760 → Accepted file (handleFile s file)) ∧
    (Accepted file (handleFile s file) ↔ file.size ≤ 10 * 1024 * 1024) ∧
    (Rejected s (handleFile s file) ↔ ¬ file.size ≤ 10 * 1024 * 1024) := by
  by_cases hs : file.size ≤ 10 * 1024 * 1024
  · have hgt : ¬ file.size > 10 * 1024 * 1024 := by omega
    have hval : handleFile s file =
        displayImagePreview { s with currentFile := some file } file := by
      simp [handleFile, h, hgt]
    have hacc : Accepted file (handleFile s file) := by
      rw [hval]; exact ⟨rfl, rfl⟩
    have hnrej : ¬ Rejected s (handleFile s file) := by
      rintro ⟨_, msg, hmsg⟩
      rw [hval] at hmsg
      simp [displayImagePreview] at hmsg
    refine ⟨fun h1 => by omega, fun _ => hacc, ⟨fun _ => hs, fun _ => hacc⟩, ⟨fun hr => absurd hr hnrej, fun hn => absurd hs hn⟩⟩
  · have hgt : file.size > 10 * 1024 * 1024 := by omega
    have hval : handleFile s file =
        (s, [Effect.alert "File is too large. Maximum size is 10MB."]) := by
      simp [handleFile, h, hgt]
    have hrej : Rejected s (handleFile s file) := by
      rw [hval]; exact ⟨rfl, _, rfl⟩
    have hnacc : ¬ Accepted file (handleFile s file) := by
      rintro ⟨_, heff⟩
      rw [hval] at heff
      simp at heff
    refine ⟨fun _ => hrej, fun h1 => by omega, ⟨fun ha => absurd ha hnacc, fun hl => absurd hl hs⟩, ⟨fun _ => hs, fun _ => hrej⟩⟩

theorem handleFile_size_limit_witness :
    leafPng.type ∈ validTypes ∧ Accepted leafPng (handleFile initialState leafPng) :=
  ⟨by decide, (handleFile_size_limit initialState leafPng (by decide)).2.1 (by decide)⟩

/-- C3: for every state and every file that passes validation (accepted MIME
type, size at most `10 * 1024 * 1024`), `handleFile` stores the file as the
current file, hides the upload prompt, shows the preview panel and the analyze
button, hides the result panel, changes nothing else and starts the read of
the file. -/
theorem handleFile_valid (s : State) (file : File)
    (htype : file.type ∈ validTypes) (hsize : file.size ≤ 10 * 1024 * 1024) :
    handleFile s file =
      ({ s with
          currentFile := some file
          uploadPromptHidden := true
          imagePreviewContainerHidden := false
          analyzeBtnHidden := false
          resultContainerHidden := true },
       [Effect.readAsDataURL file]) ∧
    (handleFile s file).1.currentFile = some file ∧
    (handleFile s file).1.uploadPromptHidden = true ∧
    (handleFile s file).1.imagePreviewContainerHidden = false ∧
    (handleFile s file).1.analyzeBtnHidden = false ∧
    (handleFile s file).1.resultContainerHidden = true := by
  have hgt : ¬ file.size > 10 * 1024 * 1024 := by omega
  have hval : handleFile s file =
      displayImagePreview { s with currentFile := some file } file := by
    simp [handleFile, htype, hgt]
  rw [hval]
  exact ⟨rfl, rfl, rfl, rfl, rfl, rfl⟩

theorem handleFile_valid_witness :
    leafPng.type ∈ validTypes ∧ leafPng.size ≤ 10 * 1024 * 1024 ∧
      (handleFile (displayResults samplePlatform initialState lateBlight) leafPng).1.resultContainerHidden = true ∧
      (handleFile (displayResults samplePlatform initialState lateBlight) leafPng).1.currentFile = some leafPng :=
  ⟨by decide, by decide,
    (handleFile_valid (displayResults samplePlatform initialState lateBlight) leafPng
      (by decide) (by decide)).2.2.2.2.2,
    (handleFile_valid (displayResults samplePlatform initialState lateBlight) leafPng
      (by decide) (by decide)).2.1⟩

/-- C5: for every state with a current file and the result panel hidden, a
submission whose `/predict` request fails in transport or returns a status
outside 200 to 299 starts one request and ends in the state it began in except
that the analyze button is enabled and not busy (text shown, spinner hidden):
the result panel is still hidden, the current file and every other field are
as before, and the failure is reported by an alert. -/
theorem uploadAndPredict_failure (P : Platform) (s : State) (file : File)
    (r : FetchResult PredictionData)
    (hfile : s.currentFile = some file) (hres : s.resultContainerHidden = true)
    (hfail : r.failed = true) :
    (onSubmit s).2 = [Effect.fetchPredict file] ∧
    (uploadAndPredictSettle P (onSubmit s).1 r).1 =
      { s with btnTextHidden := false, spinnerHidden := true, analyzeBtnDisabled := false } ∧
    (uploadAndPredictSettle P (onSubmit s).1 r).1.resultContainerHidden = true ∧
    (uploadAndPredictSettle P (onSubmit s).1 r).1.analyzeBtnDisabled = false ∧
    (uploadAndPredictSettle P (onSubmit s).1 r).1.btnTextHidden = false ∧
    (uploadAndPredictSettle P (onSubmit s).1 r).1.spinnerHidden = true ∧
    (uploadAndPredictSettle P (onSubmit s).1 r).1.currentFile = some file ∧
    Effect.alert "An error occurred during analysis. Please try again." ∈
      (uploadAndPredictSettle P (onSubmit s).1 r).2 := by
  have hstart : onSubmit s = (setLoading s true, [Effect.fetchPredict file]) := by
    simp [onSubmit, hfile, uploadAndPredictStart]
  have hsettle : uploadAndPredictSettle P (setLoading s true) r =
      (setLoading (setLoading s true) false, predictFailure) := by
    cases r with
    | networkError => rfl
    | response status body =>
        have hok : responseOk status = false := by
          simpa [FetchResult.failed] using hfail
        simp [uploadAndPredictSettle, hok]
  rw [hstart, hsettle]
  refine ⟨rfl, rfl, ?_, rfl, rfl, rfl, ?_, ?_⟩
  · simpa [setLoading] using hres
  · simpa [setLoading] using hfile
  · simp [predictFailure]

theorem uploadAndPredict_failure_witness :
    (handleFile initialState leafPng).1.currentFile = some leafPng ∧
    (handleFile initialState leafPng).1.resultContainerHidden = true ∧
    (FetchResult.response 500 none : FetchResult PredictionData).failed = true ∧
    (uploadAndPredictSettle samplePlatform (onSubmit (handleFile initialState leafPng).1).1
        (FetchResult.response 500 none)).1 =
      { (handleFile initialState leafPng).1 with
          btnTextHidden := false, spinnerHidden := true, analyzeBtnDisabled := false } :=
  ⟨by decide, by decide, by decide,
    (uploadAndPredict_failure samplePlatform (handleFile initialState leafPng).1 leafPng
      (FetchResult.response 500 none) (by decide) (by decide) (by decide)).2.1⟩

/-- C6, the code at the failing inputs: in the run from page load that selects
a file, submits it, receives the prediction and clicks the help button, the
help button is still disabled after the recommendation request has settled,
both when it succeeds and when it fails with status 500 and the apology
("Please try again later") is shown; the panel is visible, its spinner hidden
and its content shown in both. -/
theorem helpClick_button_not_reenabled :
    (run samplePlatform initialWorld
        [Event.change "leaf.png" [leafPng], Event.submit,
         Event.predictSettled (FetchResult.response 200 (some lateBlight)),
         Event.helpClick,
         Event.recommendationSettled (FetchResult.response 200 (some "Prune."))]).map
      (fun w => (w.ui.recommendationContainerHidden, w.ui.recommendationSpinnerHidden,
        w.ui.recommendationContentHidden, w.ui.helpBtnDisabled, w.recommendations)) =
      some (false, true, false, true, 0) ∧
    (run samplePlatform initialWorld
        [Event.change "leaf.png" [leafPng], Event.submit,
         Event.predictSettled (FetchResult.response 200 (some lateBlight)),
         Event.helpClick,
         Event.recommendationSettled (FetchResult.response 500 none)]).map
      (fun w => (w.ui.recommendationContainerHidden, w.ui.recommendationSpinnerHidden,
        w.ui.recommendationContentHidden, w.ui.helpBtnDisabled, w.recommendations,
        w.ui.recommendationContentHTML)) =
      some (false, true, false, true, 0, apology) := by
  constructor <;> decide

/-- For every outcome of the request, a completed run of the help listener
ends with the recommendation panel visible, its spinner hidden and its content
shown, and so does a second run made after the first has resolved. -/
theorem helpClick_panel_shown (P : Platform) (s : State) (r1 r2 : FetchResult String) :
    ((helpClickSettle P (helpClickStart s).1 r1).1.recommendationContainerHidden = false ∧
     (helpClickSettle P (helpClickStart s).1 r1).1.recommendationSpinnerHidden = true ∧
     (helpClickSettle P (helpClickStart s).1 r1).1.recommendationContentHidden = false) ∧
    ((helpClickSettle P
        (helpClickStart (helpClickSettle P (helpClickStart s).1 r1).1).1 r2).1.recommendationContainerHidden = false ∧
     (helpClickSettle P
        (helpClickStart (helpClickSettle P (helpClickStart s).1 r1).1).1 r2).1.recommendationSpinnerHidden = true ∧
     (helpClickSettle P
        (helpClickStart (helpClickSettle P (helpClickStart s).1 r1).1).1 r2).1.recommendationContentHidden = false) := by
  have key : ∀ (t : State) (r : FetchResult String),
      (helpClickSettle P (helpClickStart t).1 r).1.recommendationContainerHidden = false ∧
      (helpClickSettle P (helpClickStart t).1 r).1.recommendationSpinnerHidden = true ∧
      (helpClickSettle P (helpClickStart t).1 r).1.recommendationContentHidden = false := by
    intro t r
    cases r with
    | networkError => exact ⟨rfl, rfl, rfl⟩
    | response status body =>
        cases hok : responseOk status with
        | false => simp [helpClickSettle, helpClickStart, hok]
        | true =>
            cases body with
            | none => simp [helpClickSettle, helpClickStart, hok]
            | some md =>
                cases hm : P.markedParse md with
                | none => simp [helpClickSettle, helpClickStart, hok, hm]
                | some html => simp [helpClickSettle, helpClickStart, hok, hm]
  exact ⟨key s r1, key _ r2⟩

/-- C7, the code at the failing input: in the run from page load that selects
a file, submits it and clicks the remove button while the request is
outstanding, the state after `resetUI` still has the analyze button busy
(disabled, spinner shown, text hidden); a file selected next finds the analyze
button visible and still busy. -/
theorem resetUI_keeps_busy :
    (run samplePlatform initialWorld
        [Event.change "leaf.png" [leafPng], Event.submit, Event.removeImageClick]).map
      (fun w => (w.ui.analyzeBtnDisabled, w.ui.spinnerHidden, w.ui.btnTextHidden, w.predicts)) =
      some (true, false, true, 1) ∧
    (run samplePlatform initialWorld
        [Event.change "leaf.png" [leafPng], Event.submit, Event.removeImageClick,
         Event.change "leaf.png" [leafPng]]).map
      (fun w => (w.ui.analyzeBtnHidden, w.ui.analyzeBtnDisabled, w.ui.spinnerHidden,
        w.ui.btnTextHidden)) =
      some (false, true, false, true) := by
  constructor <;> decide

/-- The fields `resetUI` writes: for every state, after it the current file is
absent, the file-input value is empty, the upload form and the upload prompt
are visible, the preview, the analyze button, the result and the
recommendation panel are hidden, the preview source is empty, the confidence
bar is at 0% and the help button is enabled. -/
theorem resetUI_fields (s : State) :
    (resetUI s).currentFile = none ∧
    (resetUI s).fileInputValue = "" ∧
    (resetUI s).uploadFormHidden = false ∧
    (resetUI s).uploadPromptHidden = false ∧
    (resetUI s).imagePreviewContainerHidden = true ∧
    (resetUI s).analyzeBtnHidden = true ∧
    (resetUI s).resultContainerHidden = true ∧
    (resetUI s).recommendationContainerHidden = true ∧
    (resetUI s).imagePreviewSrc = "" ∧
    (resetUI s).confidenceLevelWidth = "0%" ∧
    (resetUI s).helpBtnDisabled = false :=
  ⟨rfl, rfl, rfl, rfl, rfl, rfl, rfl, rfl, rfl, rfl, rfl⟩

/-- C8: `resetUI` is idempotent: for every state, applying it twice gives the
same state, in every field, as applying it once. -/
theorem resetUI_idempotent (s : State) : resetUI (resetUI s) = resetUI s := rfl

theorem panelsOk_handleFile (s : State) (file : File) (h : panelsOk s = true) :
    panelsOk (handleFile s file).1 = true := by
  unfold handleFile
  split
  · exact h
  · split
    · exact h
    · simp [panelsOk, displayImagePreview]

theorem panelsOk_onFiles (s : State) (files : List File) (h : panelsOk s = true) :
    panelsOk (onFiles s files).1 = true := by
  cases files with
  | nil => exact h
  | cons file rest => exact panelsOk_handleFile s file h

theorem panelsOk_resetUI (s : State) : panelsOk (resetUI s) = true := by
  simp [panelsOk, resetUI]

theorem panelsOk_setLoading (s : State) (b : Bool) (h : panelsOk s = true) :
    panelsOk (setLoading s b) = true := by
  cases b <;> simpa [panelsOk, setLoading] using h

theorem panelsOk_displayResults (P : Platform) (s : State) (data : PredictionData) :
    panelsOk (displayResults P s data) = true := by
  simp [panelsOk, displayResults]

theorem panelsOk_onSubmit (s : State) (h : panelsOk s = true) :
    panelsOk (onSubmit s).1 = true := by
  unfold onSubmit
  split
  · exact panelsOk_setLoading s true h
  · exact h

theorem panelsOk_uploadAndPredictSettle (P : Platform) (s : State)
    (r : FetchResult PredictionData) (h : panelsOk s = true) :
    panelsOk (uploadAndPredictSettle P s r).1 = true := by
  unfold uploadAndPredictSettle
  apply panelsOk_setLoading
  cases r with
  | networkError => exact h
  | response status body =>
      cases hok : responseOk status with
      | false => simpa [hok] using h
      | true =>
          cases body with
          | none => simpa [hok] using h
          | some data => simpa [hok] using panelsOk_displayResults P s data

theorem panelsOk_helpClickStart (s : State) (h : panelsOk s = true) :
    panelsOk (helpClickStart s).1 = true := by
  simpa [panelsOk, helpClickStart] using h

theorem panelsOk_helpClickSettle (P : Platform) (s : State) (r : FetchResult String)
    (h : panelsOk s = true) : panelsOk (helpClickSettle P s r).1 = true := by
  have h0 : s.uploadFormHidden = true ∨ s.resultContainerHidden = true := by
    simpa [panelsOk] using h
  cases r with
  | networkError => simpa [panelsOk, helpClickSettle] using h0
  | response status body =>
      cases hok : responseOk status with
      | false => simpa [panelsOk, helpClickSettle, hok] using h0
      | true =>
          cases body with
          | none => simpa [panelsOk, helpClickSettle, hok] using h0
          | some md =>
              cases hm : P.markedParse md with
              | none => simpa [panelsOk, helpClickSettle, hok, hm] using h0
              | some html => simpa [panelsOk, helpClickSettle, hok, hm] using h0

theorem panelsOk_step (P : Platform) (w w1 : World) (ev : Event)
    (hstep : step P w ev = some w1) (h : panelsOk w.ui = true) :
    panelsOk w1.ui = true := by
  cases ev with
  | change value files =>
      simp only [step, Option.some.injEq] at hstep
      subst hstep
      exact panelsOk_onFiles _ files (by simpa [panelsOk] using h)
  | dragover =>
      simp only [step, Option.some.injEq] at hstep
      subst hstep
      simpa [panelsOk, World.after] using h
  | dragleave =>
      simp only [step, Option.some.injEq] at hstep
      subst hstep
      simpa [panelsOk, World.after] using h
  | drop files =>
      simp only [step, Option.some.injEq] at hstep
      subst hstep
      exact panelsOk_onFiles _ files (by simpa [panelsOk] using h)
  | removeImageClick =>
      simp only [step, Option.some.injEq] at hstep
      subst hstep
      exact panelsOk_resetUI _
  | analyzeAnotherClick =>
      simp only [step, Option.some.injEq] at hstep
      subst hstep
      exact panelsOk_resetUI _
  | submit =>
      simp only [step, Option.some.injEq] at hstep
      subst hstep
      exact panelsOk_onSubmit _ h
  | helpClick =>
      simp only [step, Option.some.injEq] at hstep
      subst hstep
      exact panelsOk_helpClickStart _ h
  | readerLoaded file =>
      simp only [step] at hstep
      split at hstep
      · simp only [Option.some.injEq] at hstep
        subst hstep
        simpa [panelsOk, World.after, readerOnload] using h
      · exact absurd hstep (by simp)
  | predictSettled r =>
      simp only [step] at hstep
      split at hstep
      · simp only [Option.some.injEq] at hstep
        subst hstep
        exact panelsOk_uploadAndPredictSettle P _ r h
      · exact absurd hstep (by simp)
  | recommendationSettled r =>
      simp only [step] at hstep
      split at hstep
      · simp only [Option.some.injEq] at hstep
        subst hstep
        exact panelsOk_helpClickSettle P _ r h
      · exact absurd hstep (by simp)

theorem panelsOk_run (P : Platform) (evs : List Event) (w w1 : World)
    (hrun : run P w evs = some w1) (h : panelsOk w.ui = true) :
    panelsOk w1.ui = true := by
  induction evs generalizing w with
  | nil =>
      simp only [run, Option.some.injEq] at hrun
      subst hrun
      exact h
  | cons ev rest ih =>
      simp only [run] at hrun
      cases hs : step P w ev with
      | none => simp [hs] at hrun
      | some w2 =>
          rw [hs] at hrun
          exact ih w2 hrun (panelsOk_step P w w2 ev hs h)

/-- C9: in every state reached from the state at page load by any sequence of
events (file selections accepted or rejected, drag events, submissions,
prediction responses, help clicks, recommendation responses, file reads
completing, resets, in any interleaving), the upload form and the result panel
are not both visible. -/
theorem panels_never_both_visible (P : Platform) (evs : List Event) (w : World)
    (hrun : run P initialWorld evs = some w) :
    ¬ (w.ui.uploadFormHidden = false ∧ w.ui.resultContainerHidden = false) := by
  have h := panelsOk_run P evs initialWorld w hrun (by decide)
  rintro ⟨h1, h2⟩
  simp [panelsOk, h1, h2] at h

theorem panels_never_both_visible_witness :
    (run samplePlatform initialWorld sampleRun).map
        (fun w => (w.ui.uploadFormHidden, w.ui.resultContainerHidden, w.predicts)) =
      some (true, false, 0) ∧
    ¬ (((run samplePlatform initialWorld sampleRun).getD initialWorld).ui.uploadFormHidden = false ∧
       ((run samplePlatform initialWorld sampleRun).getD initialWorld).ui.resultContainerHidden = false) :=
  ⟨by decide,
    panels_never_both_visible samplePlatform sampleRun
      ((run samplePlatform initialWorld sampleRun).getD initialWorld) (by decide)⟩

/-- C10: the controller does not guard against stale responses.  From page
load, select a valid file, submit it and click the remove button: the request
is still outstanding and `resetUI` has put the panels back to idle (no current
file, upload form visible, result hidden).  When the successful response then
arrives, the result panel is visible and the upload form hidden although
there is no current file. -/
theorem stale_response_mutates_reset_state (P : Platform) :
    (run P initialWorld
        [Event.change "leaf.png" [leafPng], Event.submit, Event.removeImageClick]).map
      (fun w => (w.predicts, w.ui.currentFile, w.ui.uploadFormHidden,
        w.ui.uploadPromptHidden, w.ui.imagePreviewContainerHidden,
        w.ui.resultContainerHidden)) =
      some (1, none, false, false, true, true) ∧
    (run P initialWorld
        [Event.change "leaf.png" [leafPng], Event.submit, Event.removeImageClick,
         Event.predictSettled (FetchResult.response 200 (some lateBlight))]).map
      (fun w => (w.predicts, w.ui.currentFile, w.ui.uploadFormHidden,
        w.ui.resultContainerHidden, w.ui.resultDiseaseText)) =
      some (0, none, true, false, "Tomato Late blight") := by
  constructor <;> rfl

theorem scaled_eq_div (m : Nat) (e : Int) :
    (m : ℚ) * (2 : ℚ) ^ e = ((m * 2 ^ e.toNat : ℕ) : ℚ) / ((2 ^ (-e).toNat : ℕ) : ℚ) := by
  cases e with
  | ofNat k =>
      have h1 : (Int.ofNat k).toNat = k := rfl
      have h2 : (-(Int.ofNat k)).toNat = 0 := by
        cases k <;> rfl
      rw [h1, h2]
      simp
  | negSucc k =>
      have h1 : (Int.negSucc k).toNat = 0 := rfl
      have h2 : (-(Int.negSucc k)).toNat = k + 1 := rfl
      rw [h1, h2, zpow_negSucc]
      simp [div_eq_mul_inv]

theorem abs_toRat_finite (neg : Bool) (m : Nat) (e : Int) :
    |Num.toRat (.finite neg m e)| =
      ((m * 2 ^ e.toNat : ℕ) : ℚ) / ((2 ^ (-e).toNat : ℕ) : ℚ) := by
  have hnn : (0 : ℚ) ≤ (m : ℚ) * (2 : ℚ) ^ e := by positivity
  rw [← scaled_eq_div]
  cases neg
  · simp only [Num.toRat, Bool.false_eq_true, if_false, one_mul]
    exact abs_of_nonneg hnn
  · simp only [Num.toRat, if_true, neg_mul, one_mul, abs_neg]
    exact abs_of_nonneg hnn

theorem toRat_finite_neg_iff (neg : Bool) (m : Nat) (e : Int) :
    Num.toRat (.finite neg m e) < 0 ↔ (neg = true ∧ m ≠ 0) := by
  have hpow : (0 : ℚ) < (2 : ℚ) ^ e := by positivity
  cases neg
  · have hnn : (0 : ℚ) ≤ (m : ℚ) * (2 : ℚ) ^ e := by positivity
    simp only [Num.toRat, Bool.false_eq_true, if_false, one_mul, false_and, iff_false, not_lt]
    exact hnn
  · simp only [Num.toRat, if_true, neg_mul, one_mul, true_and, Left.neg_neg_iff]
    constructor
    · intro h hm
      rw [hm] at h
      simp at h
    · intro hm
      have : (0 : ℚ) < (m : ℚ) := by exact_mod_cast Nat.pos_of_ne_zero hm
      positivity

theorem wholeDigits_small (n : Nat) (h : n < 10) : wholeDigits n = [Nat.digitChar n] := by
  by_cases h0 : n = 0
  · subst h0
    rfl
  · simp [wholeDigits, h0, Nat.digits_of_lt 10 n h0 h]

theorem wholeDigits_step (n : Nat) (h : 10 ≤ n) :
    wholeDigits n = wholeDigits (n / 10) ++ [Nat.digitChar (n % 10)] := by
  have h0 : n ≠ 0 := by omega
  have h1 : n / 10 ≠ 0 := by omega
  simp [wholeDigits, h0, h1, Nat.digits_def' (by decide : 1 < 10) (by omega : 0 < n)]

theorem toDigitsCore_eq (fuel n : Nat) (acc : List Char) (h : n < fuel) :
    Nat.toDigitsCore 10 fuel n acc = wholeDigits n ++ acc := by
  induction fuel generalizing n acc with
  | zero => omega
  | succ fuel ih =>
      unfold Nat.toDigitsCore
      by_cases hn : n / 10 = 0
      · simp only [hn, if_true]
        rw [wholeDigits_small n (by omega)]
        have : n % 10 = n := Nat.mod_eq_of_lt (by omega)
        simp [this]
      · simp only [hn, if_false]
        rw [ih (n / 10) _ (by omega), wholeDigits_step n (by omega)]
        simp

theorem repr_data (n : Nat) : (Nat.repr n).data = wholeDigits n := by
  have h := toDigitsCore_eq (n + 1) n [] (by omega)
  simpa [Nat.repr, Nat.toDigits, List.asString] using h

theorem wholeDigits_length_pos (n : Nat) : 0 < (wholeDigits n).length := by
  by_cases h : n < 10
  · rw [wholeDigits_small n h]
    simp
  · rw [wholeDigits_step n (by omega)]
    simp

/-- The digit string of `toFixed` with two fraction digits is the numeral with
two decimals of `n / 100`. -/
theorem fixedDigits_two (n : Nat) : fixedDigits n 2 = twoDecimalString n := by
  unfold fixedDigits twoDecimalString
  rw [repr_data]
  by_cases h1 : n < 10
  · have e1 : n / 100 = 0 := by omega
    have e2 : n / 10 % 10 = 0 := by omega
    have e3 : n % 10 = n := by omega
    rw [wholeDigits_small n h1, e1, e2, e3, wholeDigits_small 0 (by decide)]
    rfl
  · by_cases h2 : n < 100
    · have e1 : n / 100 = 0 := by omega
      have e2 : n / 10 % 10 = n / 10 := by omega
      rw [wholeDigits_step n (by omega), wholeDigits_small (n / 10) (by omega), e1, e2,
        wholeDigits_small 0 (by decide)]
      rfl
    · have e1 : n / 10 / 10 = n / 100 := by omega
      rw [wholeDigits_step n (by omega), wholeDigits_step (n / 10) (by omega), e1]
      have hpos := wholeDigits_length_pos (n / 100)
      generalize wholeDigits (n / 100) = w at hpos
      have hlen : ¬ ((w ++ [Nat.digitChar (n / 10 % 10)] ++ [Nat.digitChar (n % 10)]).length ≤ 2) := by
        simp only [List.length_append, List.length_singleton]
        omega
      simp only [hlen, if_false]
      have hl : (w ++ [Nat.digitChar (n / 10 % 10)] ++ [Nat.digitChar (n % 10)]).length - 2 =
          w.length := by
        simp
      rw [hl]
      simp [List.append_assoc, List.take_append_eq_append_take, List.drop_append_eq_append_drop]

theorem digitChar_isDigit (d : Nat) (h : d < 10) : (Nat.digitChar d).isDigit = true := by
  have hall : ∀ k, k < 10 → (Nat.digitChar k).isDigit = true := by decide
  exact hall d h

theorem wholeDigits_isDigit (n : Nat) : ∀ c ∈ wholeDigits n, c.isDigit = true := by
  induction n using Nat.strong_induction_on with
  | _ n ih =>
      by_cases h : n < 10
      · rw [wholeDigits_small n h]
        intro c hc
        rw [List.mem_singleton] at hc
        subst hc
        exact digitChar_isDigit n h
      · rw [wholeDigits_step n (by omega)]
        intro c hc
        rcases List.mem_append.1 hc with hc1 | hc2
        · exact ih (n / 10) (by omega) c hc1
        · rw [List.mem_singleton] at hc2
          subst hc2
          exact digitChar_isDigit _ (by omega)

theorem skipDigits_append (w r : List Char) (hw : ∀ c ∈ w, c.isDigit = true) :
    skipDigits (w ++ r) = skipDigits r := by
  induction w with
  | nil => rfl
  | cons c w ih =>
      have hc : c.isDigit = true := hw c (List.mem_cons_self c w)
      have hrest : ∀ x ∈ w, x.isDigit = true := fun x hx => hw x (List.mem_cons_of_mem c hx)
      simp only [skipDigits, List.cons_append, List.dropWhile_cons, hc, if_true]
      exact ih hrest

theorem cssWidthValid_digits (w : List Char) (a b : Char) (hne : w ≠ [])
    (hw : ∀ c ∈ w, c.isDigit = true) (ha : a.isDigit = true) (hb : b.isDigit = true) :
    cssWidthValid (String.mk (w ++ ['.', a, b]) ++ "%") = true := by
  have hdata : (String.mk (w ++ ['.', a, b]) ++ "%").data = w ++ ['.', a, b, '%'] := by
    show (w ++ ['.', a, b]) ++ ['%'] = _
    simp
  have hskip : skipDigits (w ++ ['.', a, b, '%']) = ['.', a, b, '%'] := by
    rw [skipDigits_append w _ hw]
    rfl
  have hunsigned : cssUnsignedPercentage (w ++ ['.', a, b, '%']) = true := by
    have hlen : ['.', a, b, '%'].length < (w ++ ['.', a, b, '%']).length := by
      have := List.length_pos.2 hne
      simp only [List.length_append]
      omega
    have hb2 : skipDigits [b, '%'] = ['%'] := by
      simp only [skipDigits, List.dropWhile_cons, hb, if_true]
      rfl
    unfold cssUnsignedPercentage
    simp only [hskip, ha, hb2, hlen, and_self, if_true, decide_True, Bool.true_or, Bool.true_and]
    rfl
  cases w with
  | nil => exact absurd rfl hne
  | cons c rest =>
      have hc : c.isDigit = true := hw c (List.mem_cons_self c rest)
      have hm : c ≠ '-' := by
        intro h
        rw [h] at hc
        exact absurd hc (by decide)
      have hp : c ≠ '+' := by
        intro h
        rw [h] at hc
        exact absurd hc (by decide)
      unfold cssWidthValid
      rw [hdata]
      simp only [List.cons_append, hm, hp, if_false]
      exact hunsigned

/-- The numeral with two decimals followed by `%` is a valid width. -/
theorem cssWidthValid_twoDecimalString (n : Nat) :
    cssWidthValid (twoDecimalString n ++ "%") = true := by
  unfold twoDecimalString
  exact cssWidthValid_digits (wholeDigits (n / 100)) _ _
    (List.ne_nil_of_length_pos (wholeDigits_length_pos _)) (wholeDigits_isDigit _)
    (digitChar_isDigit _ (by omega)) (digitChar_isDigit _ (by omega))

theorem toFixed_two_decimals (P : Platform) (neg : Bool) (m : Nat) (e : Int)
    (h : |Num.toRat (.finite neg m e)| < 10 ^ 21) :
    toFixed P (.finite neg m e) 2 = roundedToTwoDecimals (Num.toRat (.finite neg m e)) := by
  have hq : 0 < 2 ^ (-e).toNat := Nat.pos_of_ne_zero (by positivity)
  have hqQ : (0 : ℚ) < ((2 ^ (-e).toNat : ℕ) : ℚ) := by exact_mod_cast hq
  have habs := abs_toRat_finite neg m e
  have hcond : ¬ (10 ^ 21 * 2 ^ (-e).toNat ≤ m * 2 ^ e.toNat) := by
    rw [habs, div_lt_iff₀ hqQ] at h
    have h1 : m * 2 ^ e.toNat < 10 ^ 21 * 2 ^ (-e).toNat := by exact_mod_cast h
    omega
  have hfloor : ⌊|Num.toRat (.finite neg m e)| * 100 + 1 / 2⌋₊ =
      (2 * (m * 2 ^ e.toNat) * 10 ^ 2 + 2 ^ (-e).toNat) / (2 * 2 ^ (-e).toNat) := by
    rw [habs]
    have hne : ((2 ^ (-e).toNat : ℕ) : ℚ) ≠ 0 := ne_of_gt hqQ
    have heq : ((m * 2 ^ e.toNat : ℕ) : ℚ) / ((2 ^ (-e).toNat : ℕ) : ℚ) * 100 + 1 / 2 =
        ((2 * (m * 2 ^ e.toNat) * 10 ^ 2 + 2 ^ (-e).toNat : ℕ) : ℚ) /
          ((2 * 2 ^ (-e).toNat : ℕ) : ℚ) := by
      push_cast
      field_simp
      ring
    rw [heq, Nat.floor_div_eq_div]
  unfold toFixed roundedToTwoDecimals
  simp only [hcond, if_false, hfloor, fixedDigits_two]
  by_cases hs : neg = true ∧ m ≠ 0
  · rw [if_pos hs, if_pos ((toRat_finite_neg_iff neg m e).2 hs)]
  · rw [if_neg hs, if_neg (fun hlt => hs ((toRat_finite_neg_iff neg m e).1 hlt))]

theorem log2Floor_go_spec (fuel n : Nat) (hn : 1 ≤ n) (hf : n ≤ fuel) :
    2 ^ log2Floor.go fuel n ≤ n ∧ n < 2 ^ (log2Floor.go fuel n + 1) := by
  induction fuel generalizing n with
  | zero => omega
  | succ fuel ih =>
      unfold log2Floor.go
      by_cases h2 : n < 2
      · rw [if_pos h2]
        constructor <;> simp <;> omega
      · rw [if_neg h2]
        have hhalf := ih (n / 2) (by omega) (by omega)
        rw [pow_succ, pow_succ]
        constructor <;> omega

theorem log2Floor_le (n : Nat) (hn : 1 ≤ n) : 2 ^ log2Floor n ≤ n :=
  (log2Floor_go_spec n n hn (le_refl n)).1

theorem lt_log2Floor (n : Nat) : n < 2 ^ (log2Floor n + 1) := by
  by_cases hn : 1 ≤ n
  · exact (log2Floor_go_spec n n hn (le_refl n)).2
  · have h0 : n = 0 := by omega
    subst h0
    exact Nat.pos_of_ne_zero (by positivity)

theorem log2Floor_le_of_lt (n j : Nat) (h : n < 2 ^ (j + 1)) : log2Floor n ≤ j := by
  by_cases hn : 1 ≤ n
  · have h1 := log2Floor_le n hn
    have h2 : 2 ^ log2Floor n < 2 ^ (j + 1) := lt_of_le_of_lt h1 h
    have h3 := (Nat.pow_lt_pow_iff_right (by decide : 1 < 2)).1 h2
    omega
  · have h0 : n = 0 := by omega
    subst h0
    have : log2Floor 0 = 0 := rfl
    omega

theorem ulpExponent_bounds (p q : Nat) (hq : 0 < q) (hB : p ≤ 100 * q) :
    -1074 ≤ ulpExponent p q ∧ ulpExponent p q ≤ -45 := by
  have hlog : log2Floor p ≤ log2Floor q + 7 := by
    apply log2Floor_le_of_lt
    have h1 := lt_log2Floor q
    have h2 : 2 ^ (log2Floor q + 7 + 1) = 2 ^ (log2Floor q + 1) * 128 := by
      rw [show log2Floor q + 7 + 1 = (log2Floor q + 1) + 7 by omega, pow_add]; norm_num
    omega
  have key : ∀ (b : Bool) (e0 : Int), e0 ≤ 7 →
      -1074 ≤ max ((if b = true then e0 - 1 else e0) - 52) (-1074) ∧
        max ((if b = true then e0 - 1 else e0) - 52) (-1074) ≤ -45 := by
    intro b e0 h0
    cases b <;> simp <;> omega
  exact key _ ((log2Floor p : Int) - (log2Floor q : Int)) (by omega)

theorem roundedSignificand_le (p q : Nat) (u : Int) :
    roundedSignificand p q u ≤ p * 2 ^ (-u).toNat / (q * 2 ^ u.toNat) + 1 := by
  unfold roundedSignificand
  simp only
  split <;> omega

/-- The rounded significand is an integer nearest to `p / (q * 2^u)`: it is
within one half of it. -/
theorem roundedSignificand_nearest (p q : Nat) (u : Int) (hq : 0 < q) :
    2 * (roundedSignificand p q u * (q * 2 ^ u.toNat)) ≤
        2 * (p * 2 ^ (-u).toNat) + q * 2 ^ u.toNat ∧
      2 * (p * 2 ^ (-u).toNat) ≤
        2 * (roundedSignificand p q u * (q * 2 ^ u.toNat)) + q * 2 ^ u.toNat := by
  have hden : 0 < q * 2 ^ u.toNat := Nat.mul_pos hq (Nat.pos_of_ne_zero (by positivity))
  unfold roundedSignificand
  simp only
  generalize q * 2 ^ u.toNat = den at hden
  generalize p * 2 ^ (-u).toNat = num
  have hdm := Nat.div_add_mod num den
  have hlt := Nat.mod_lt num hden
  have hmul : num / den * den = den * (num / den) := Nat.mul_comm _ _
  split
  · rw [Nat.add_mul, hmul]
    omega
  · rw [hmul]
    omega

theorem roundNearestEven_bounded (neg : Bool) (p q : Nat) (hq : 0 < q)
    (hB : p ≤ 100 * q) :
    ∃ mant u, roundNearestEven neg p q = Num.finite neg mant u ∧
      (mant : ℚ) * (2 : ℚ) ^ u ≤ 101 ∧
      |(mant : ℚ) * (2 : ℚ) ^ u - (p : ℚ) / (q : ℚ)| ≤ 1 / 2 ^ 46 := by
  have hqQ : (0 : ℚ) < (q : ℚ) := by exact_mod_cast hq
  by_cases hp : p = 0
  · refine ⟨0, 0, by simp [roundNearestEven, hp], by simp, ?_⟩
    subst hp
    simp
  · obtain ⟨hu1, hu2⟩ := ulpExponent_bounds p q hq hB
    have hm := roundedSignificand_le p q (ulpExponent p q)
    have hnear := roundedSignificand_nearest p q (ulpExponent p q) hq
    generalize hu : ulpExponent p q = u at hu1 hu2 hm hnear
    generalize hmant : roundedSignificand p q u = mant at hm hnear
    obtain ⟨k, hk⟩ : ∃ k : Nat, u = -(k : Int) := ⟨(-u).toNat, by omega⟩
    subst hk
    have hk1 : (-(-(k : Int))).toNat = k := by omega
    have hk2 : (-(k : Int)).toNat = 0 := by omega
    rw [hk1, hk2, pow_zero, mul_one] at hm
    rw [hk1, hk2, pow_zero, mul_one] at hnear
    have hpos : 0 < 2 ^ k := Nat.pos_of_ne_zero (by positivity)
    have hdiv : p * 2 ^ k / q ≤ 100 * 2 ^ k := by
      apply Nat.div_le_of_le_mul
      calc p * 2 ^ k ≤ (100 * q) * 2 ^ k := Nat.mul_le_mul_right _ hB
        _ = q * (100 * 2 ^ k) := by ring
    have hle : mant ≤ 100 * 2 ^ k + 1 := le_trans hm (by omega)
    have hlog : log2Floor mant ≤ k + 6 := by
      apply log2Floor_le_of_lt
      have h2 : 2 ^ (k + 6 + 1) = 2 ^ k * 128 := by
        rw [show k + 6 + 1 = k + 7 by omega, pow_add]; norm_num
      omega
    have hT : (0 : ℚ) < (2 : ℚ) ^ k := by positivity
    refine ⟨mant, -(k : Int), ?_, ?_, ?_⟩
    · unfold roundNearestEven
      simp only [hp, if_false, hu, hmant]
      rw [if_neg (by omega)]
    · rw [zpow_neg, zpow_natCast, ← div_eq_mul_inv, div_le_iff₀ hT]
      have h3 : mant ≤ 101 * 2 ^ k := by omega
      exact_mod_cast h3
    · have hk45 : 45 ≤ k := by omega
      have hT45 : (2 : ℚ) ^ 45 ≤ (2 : ℚ) ^ k := pow_le_pow_right₀ (by norm_num) hk45
      have hn1 : 2 * ((mant : ℚ) * q) ≤ 2 * ((p : ℚ) * 2 ^ k) + q := by exact_mod_cast hnear.1
      have hn2 : 2 * ((p : ℚ) * 2 ^ k) ≤ 2 * ((mant : ℚ) * q) + q := by exact_mod_cast hnear.2
      have key : (mant : ℚ) * (2 : ℚ) ^ (-(k : Int)) - (p : ℚ) / (q : ℚ) =
          ((mant : ℚ) * q - (p : ℚ) * 2 ^ k) / ((2 : ℚ) ^ k * q) := by
        rw [zpow_neg, zpow_natCast]
        field_simp
        ring
      rw [key, abs_div, abs_of_pos (mul_pos hT hqQ), div_le_iff₀ (mul_pos hT hqQ)]
      have habs : |(mant : ℚ) * q - (p : ℚ) * 2 ^ k| ≤ (q : ℚ) / 2 := by
        rw [abs_le]
        constructor <;> linarith
      have hfin : (q : ℚ) / 2 ≤ 1 / 2 ^ 46 * ((2 : ℚ) ^ k * q) := by
        have h45 : (q : ℚ) / 2 = 1 / 2 ^ 46 * ((2 : ℚ) ^ 45 * q) := by
          field_simp
          ring
        rw [h45]
        have hmono : (2 : ℚ) ^ 45 * q ≤ (2 : ℚ) ^ k * q :=
          mul_le_mul_of_nonneg_right hT45 (le_of_lt hqQ)
        have hc : (0 : ℚ) ≤ 1 / 2 ^ 46 := by positivity
        exact mul_le_mul_of_nonneg_left hmono hc
      exact le_trans habs hfin

theorem ofDecimal_hundred :
    Num.ofDecimal 100 0 = Num.finite false 7036874417766400 (-46) := by
  decide

/-- The binary64 product of a confidence between 0 and 1 with 100 is finite,
below `10^21` and within `2^(-46)` of the exact product. -/
theorem mul_hundred_bounded (neg : Bool) (m : Nat) (e : Int)
    (h0 : 0 ≤ Num.toRat (.finite neg m e)) (h1 : Num.toRat (.finite neg m e) ≤ 1) :
    ∃ neg1 mant u, (Num.finite neg m e).mul (Num.ofDecimal 100 0) = Num.finite neg1 mant u ∧
      |Num.toRat (.finite neg1 mant u)| < 10 ^ 21 ∧
      0 ≤ Num.toRat (.finite neg1 mant u) ∧
      |Num.toRat (.finite neg1 mant u) - Num.toRat (.finite neg m e) * 100| ≤ 1 / 2 ^ 46 := by
  have habs : |Num.toRat (.finite neg m e)| ≤ 1 := abs_le.2 ⟨by linarith, h1⟩
  rw [abs_toRat_finite, ← scaled_eq_div] at habs
  have hq : 0 < 2 ^ (-(e + -46)).toNat := Nat.pos_of_ne_zero (by positivity)
  have hqQ : (0 : ℚ) < ((2 ^ (-(e + -46)).toNat : ℕ) : ℚ) := by exact_mod_cast hq
  have hexact : ((m * 7036874417766400 * 2 ^ (e + -46).toNat : ℕ) : ℚ) /
      ((2 ^ (-(e + -46)).toNat : ℕ) : ℚ) = (m : ℚ) * (2 : ℚ) ^ e * 100 := by
    rw [← scaled_eq_div]
    push_cast
    rw [zpow_add₀ (two_ne_zero)]
    have hM : (7036874417766400 : ℚ) * (2 : ℚ) ^ (-46 : ℤ) = 100 := by norm_num
    calc (m : ℚ) * 7036874417766400 * ((2 : ℚ) ^ e * (2 : ℚ) ^ (-46 : ℤ))
        = ((m : ℚ) * (2 : ℚ) ^ e) * ((7036874417766400 : ℚ) * (2 : ℚ) ^ (-46 : ℤ)) := by ring
      _ = (m : ℚ) * (2 : ℚ) ^ e * 100 := by rw [hM]
  have hpq : ((m * 7036874417766400 * 2 ^ (e + -46).toNat : ℕ) : ℚ) /
      ((2 ^ (-(e + -46)).toNat : ℕ) : ℚ) ≤ 100 := by
    rw [hexact]
    linarith
  have hB : m * 7036874417766400 * 2 ^ (e + -46).toNat ≤ 100 * 2 ^ (-(e + -46)).toNat := by
    rw [div_le_iff₀ hqQ] at hpq
    exact_mod_cast hpq
  obtain ⟨mant, u, hr, hv, hclose⟩ := roundNearestEven_bounded (xor neg false) _ _ hq hB
  rw [hexact] at hclose
  have hx : (0 : ℚ) ≤ (mant : ℚ) * (2 : ℚ) ^ u := by positivity
  have hy : (0 : ℚ) ≤ (m : ℚ) * (2 : ℚ) ^ e := by positivity
  refine ⟨xor neg false, mant, u, ?_, ?_, ?_, ?_⟩
  · rw [ofDecimal_hundred]
    exact hr
  · rw [abs_toRat_finite, ← scaled_eq_div]
    have : (101 : ℚ) < 10 ^ 21 := by norm_num
    linarith
  · cases neg
    · simp only [Num.toRat, Bool.xor_false, Bool.false_eq_true, if_false, one_mul]
      exact hx
    · have hm0 : (m : ℚ) * (2 : ℚ) ^ e = 0 := by
        simp only [Num.toRat, if_true, neg_mul, one_mul] at h0
        linarith
      have hmQ : (m : ℚ) = 0 :=
        (mul_eq_zero.1 hm0).resolve_right (ne_of_gt (by positivity))
      have hmz : m = 0 := by exact_mod_cast hmQ
      subst hmz
      simp only [roundNearestEven, Nat.zero_mul, if_true, Num.finite.injEq] at hr
      obtain ⟨_, hmant, _⟩ := hr
      subst hmant
      simp [Num.toRat]
  · cases neg
    · simp only [Num.toRat, Bool.xor_false, Bool.false_eq_true, if_false, one_mul]
      exact hclose
    · simp only [Num.toRat, Bool.xor_false, if_true, neg_mul, one_mul]
      rw [show -((mant : ℚ) * (2 : ℚ) ^ u) - -((m : ℚ) * (2 : ℚ) ^ e * 100) =
        -((mant : ℚ) * (2 : ℚ) ^ u - (m : ℚ) * (2 : ℚ) ^ e * 100) by ring, abs_neg]
      exact hclose

theorem replaceUnderscores_get (cs : List Char) (i : Nat) :
    (replaceUnderscores cs)[i]? = (cs[i]?).map (fun c => if c = '_' then ' ' else c) := by
  induction cs generalizing i with
  | nil => simp [replaceUnderscores]
  | cons c rest ih =>
      cases i with
      | zero => simp [replaceUnderscores]
      | succ j => simpa [replaceUnderscores] using ih j

theorem roundedToTwoDecimals_of_nonneg (v : ℚ) (hv : 0 ≤ v) :
    roundedToTwoDecimals v = twoDecimalString ⌊v * 100 + 1 / 2⌋₊ := by
  unfold roundedToTwoDecimals
  rw [if_neg (not_lt.2 hv), abs_of_nonneg hv]
  exact String.empty_append _

theorem abs_floor_half_sub (x : ℚ) (hx : 0 ≤ x) :
    |((⌊x * 100 + 1 / 2⌋₊ : ℕ) : ℚ) / 100 - x| ≤ 1 / 200 := by
  have hnn : (0 : ℚ) ≤ x * 100 + 1 / 2 := by positivity
  have h1 := Nat.floor_le hnn
  have h2 := Nat.lt_floor_add_one (x * 100 + 1 / 2)
  rw [abs_le]
  constructor <;> linarith

/-- C4 as amended: for every prediction response, `displayResults` sets the
label to the prediction string with each underscore replaced by a space and
every other character unchanged.  For every confidence between 0 and 1 the
confidence text and the width of the confidence bar are the same numeral with
two decimals followed by `%`: the binary64 product `confidence * 100` rounded
to the nearest multiple of `1 / 100` (the larger one on a tie).  That product
is within `2^(-46)` of the exact product, so the value shown is within
`1 / 200 + 2^(-46)` of it.  In general the text is `toFixed(2)` of the product
followed by `%` (the product rounded to two decimals whenever it is finite
and below `10^21` in magnitude), and the width is set to the text only when
the text is a valid width.  The response `Tomato_Late_blight` with confidence
`0.8734` gives the label `Tomato Late blight`, the text `87.34%` and the
width `87.34%`. -/
theorem displayResults_label_confidence (P : Platform) (s : State) (data : PredictionData) :
    (∀ i : Nat, (displayResults P s data).resultDiseaseText.data[i]? =
      (data.prediction.data[i]?).map (fun c => if c = '_' then ' ' else c)) ∧
    (data.confidence.inUnitInterval →
      ∃ n : ℕ,
        (displayResults P s data).confidenceTextText = twoDecimalString n ++ "%" ∧
        (displayResults P s data).confidenceLevelWidth = twoDecimalString n ++ "%" ∧
        n = ⌊Num.toRat (data.confidence.mul (Num.ofDecimal 100 0)) * 100 + 1 / 2⌋₊ ∧
        |Num.toRat (data.confidence.mul (Num.ofDecimal 100 0)) -
            Num.toRat data.confidence * 100| ≤ 1 / 2 ^ 46 ∧
        |(n : ℚ) / 100 - Num.toRat data.confidence * 100| ≤ 1 / 200 + 1 / 2 ^ 46) ∧
    (∀ (neg : Bool) (m : Nat) (e : Int),
      data.confidence.mul (Num.ofDecimal 100 0) = Num.finite neg m e →
      |Num.toRat (Num.finite neg m e)| < 10 ^ 21 →
      (displayResults P s data).confidenceTextText =
        roundedToTwoDecimals (Num.toRat (Num.finite neg m e)) ++ "%") ∧
    ((displayResults P s data).confidenceLevelWidth =
      if cssWidthValid (displayResults P s data).confidenceTextText = true then
        (displayResults P s data).confidenceTextText
      else s.confidenceLevelWidth) ∧
    ((displayResults P s lateBlight).resultDiseaseText = "Tomato Late blight" ∧
      (displayResults P s lateBlight).confidenceTextText = "87.34%" ∧
      (displayResults P s lateBlight).confidenceLevelWidth = "87.34%") := by
  have hgen : ∀ (neg : Bool) (m : Nat) (e : Int),
      data.confidence.mul (Num.ofDecimal 100 0) = Num.finite neg m e →
      |Num.toRat (Num.finite neg m e)| < 10 ^ 21 →
      (displayResults P s data).confidenceTextText =
        roundedToTwoDecimals (Num.toRat (Num.finite neg m e)) ++ "%" := by
    intro neg m e hmul hlt
    show toFixed P (data.confidence.mul (Num.ofDecimal 100 0)) 2 ++ "%" = _
    rw [hmul, toFixed_two_decimals P neg m e hlt]
  have hwidth : (displayResults P s data).confidenceLevelWidth =
      if cssWidthValid (displayResults P s data).confidenceTextText = true then
        (displayResults P s data).confidenceTextText
      else s.confidenceLevelWidth := rfl
  refine ⟨fun i => replaceUnderscores_get _ i, ?_, hgen, hwidth, rfl, rfl, rfl⟩
  intro hunit
  cases hc : data.confidence with
  | finite neg m e =>
      rw [hc] at hunit
      obtain ⟨neg1, mant, u, hmul, hlt, hnn, hclose⟩ :=
        mul_hundred_bounded neg m e hunit.1 hunit.2
      have htext := hgen neg1 mant u (by rw [hc]; exact hmul) hlt
      rw [roundedToTwoDecimals_of_nonneg _ hnn] at htext
      have hround := abs_floor_half_sub _ hnn
      refine ⟨⌊Num.toRat (Num.finite neg1 mant u) * 100 + 1 / 2⌋₊, htext, ?_, ?_, ?_, ?_⟩
      · rw [hwidth, htext, cssWidthValid_twoDecimalString]
        rfl
      · rw [hmul]
      · rw [hmul]
        exact hclose
      · calc |((⌊Num.toRat (Num.finite neg1 mant u) * 100 + 1 / 2⌋₊ : ℕ) : ℚ) / 100 -
              Num.toRat (Num.finite neg m e) * 100|
            ≤ |((⌊Num.toRat (Num.finite neg1 mant u) * 100 + 1 / 2⌋₊ : ℕ) : ℚ) / 100 -
                Num.toRat (Num.finite neg1 mant u)| +
              |Num.toRat (Num.finite neg1 mant u) - Num.toRat (Num.finite neg m e) * 100| :=
              abs_sub_le _ _ _
          _ ≤ 1 / 200 + 1 / 2 ^ 46 := add_le_add hround hclose
  | inf neg => rw [hc] at hunit; exact absurd hunit (by simp [Num.inUnitInterval])
  | nan => rw [hc] at hunit; exact absurd hunit (by simp [Num.inUnitInterval])

theorem ofDecimal_50095 :
    Num.ofDecimal 50095 5 = Num.finite false 4512156466662500 (-53) := by
  decide

/-- C4 fails as stated: for the confidence `0.50095` the text is `50.09%`,
although `0.50095 * 100 = 50.095` rounded to two decimals is `50.10`, and so
is the exact value of the binary64 number nearest to `0.50095` times 100; and
for the confidence `-0.5` the text is `-50.00%` while the confidence bar keeps
the width it had. -/
theorem displayResults_not_rounded :
    (displayResults samplePlatform initialState
        { prediction := "Tomato_Late_blight", confidence := Num.ofDecimal 50095 5 }).confidenceTextText =
      "50.09%" ∧
    roundedToTwoDecimals ((50095 : ℚ) / 10 ^ 5 * 100) ++ "%" = "50.10%" ∧
    roundedToTwoDecimals (Num.toRat (Num.ofDecimal 50095 5) * 100) ++ "%" = "50.10%" ∧
    (displayResults samplePlatform initialState
        { prediction := "Tomato_Late_blight", confidence := Num.finite true 1 (-1) }).confidenceTextText =
      "-50.00%" ∧
    (displayResults samplePlatform initialState
        { prediction := "Tomato_Late_blight", confidence := Num.finite true 1 (-1) }).confidenceLevelWidth =
      "0%" := by
  have hdigits : twoDecimalString 5010 ++ "%" = "50.10%" := by
    rw [← fixedDigits_two]
    decide
  refine ⟨by decide, ?_, ?_, by decide, by decide⟩
  · rw [roundedToTwoDecimals_of_nonneg _ (by norm_num)]
    have hfloor : ⌊(50095 : ℚ) / 10 ^ 5 * 100 * 100 + 1 / 2⌋₊ = 5010 := by
      rw [Nat.floor_eq_iff (by norm_num)]
      constructor <;> norm_num
    rw [hfloor]
    exact hdigits
  · rw [ofDecimal_50095]
    have hnn : (0 : ℚ) ≤ Num.toRat (Num.finite false 4512156466662500 (-53)) * 100 := by
      simp only [Num.toRat]
      norm_num
    rw [roundedToTwoDecimals_of_nonneg _ hnn]
    have hfloor : ⌊Num.toRat (Num.finite false 4512156466662500 (-53)) * 100 * 100 + 1 / 2⌋₊ =
        5010 := by
      rw [Nat.floor_eq_iff (by linarith)]
      simp only [Num.toRat]
      constructor <;> norm_num
    rw [hfloor]
    exact hdigits

theorem lateBlight_confidence :
    lateBlight.confidence = Num.finite false 7866887829090782 (-53) := by
  decide

theorem displayResults_label_confidence_witness :
    lateBlight.confidence.inUnitInterval ∧
    (∃ n : ℕ,
      (displayResults samplePlatform initialState lateBlight).confidenceTextText =
        twoDecimalString n ++ "%" ∧
      (displayResults samplePlatform initialState lateBlight).confidenceLevelWidth =
        twoDecimalString n ++ "%" ∧
      |(n : ℚ) / 100 - Num.toRat lateBlight.confidence * 100| ≤ 1 / 200 + 1 / 2 ^ 46) ∧
    (displayResults samplePlatform initialState lateBlight).confidenceTextText = "87.34%" := by
  have hunit : lateBlight.confidence.inUnitInterval := by
    rw [lateBlight_confidence]
    simp only [Num.inUnitInterval, Num.toRat]
    norm_num
  obtain ⟨n, h1, h2, _, _, h5⟩ :=
    (displayResults_label_confidence samplePlatform initialState lateBlight).2.1 hunit
  exact ⟨hunit, ⟨n, h1, h2, h5⟩,
    (displayResults_label_confidence samplePlatform initialState lateBlight).2.2.2.2.2.1⟩

end Tomacheck
